import Mathlib

/-!
Shallow embedding of `when_to_expect.py` (the Flow Launcher plugin
`WhenToExpect`): the token parser `fraction_to_float` and the calculator /
formatter `query`.

Modelling conventions:
* Python `float` values are modelled by exact rationals `ℚ`; the transcendental
  `math.log` is modelled by `Real.log` on `ℝ`.  Binary double-precision
  rounding of intermediate arithmetic is not modelled; every number appearing
  in the claims is exact in both arithmetics.
* A Python exception escaping a function is modelled by `Except.error`.
  `ValueError` / `ZeroDivisionError` raised by `math.log(1 - c, 1 - p)` and
  caught inside `query` are modelled by the explicit conditions under which
  CPython raises them: `1 - c ≤ 0` or `1 - p ≤ 0` (math domain error) and
  `1 - p = 1` (zero logarithm of the base, i.e. float division by zero).
* `round(x, 2)` (banker's rounding at two decimals) is modelled by the integer
  `pyRoundR (100 * x)`; the rounded float is that integer divided by 100
  together with a sign bit recording IEEE `-0.0` (on which the code's
  comparison with the literal string `"-"` depends).  `str()` of such a float
  is modelled by `reprRound2`, its shortest-decimal representation; `str()` of
  a Python `int` is modelled by `intToDigits`.
* Only ASCII digits and whitespace are modelled (CPython additionally accepts
  Unicode digits, underscores in numeric literals and `inf` / `nan` tokens,
  none of which the claims exercise, and the sign of a literal `-0.0` token is
  not preserved by the rational model).
-/

deriving instance DecidableEq for Except

namespace WhenToExpect

/-- Python exception kinds that the modelled code can raise. -/
inductive PyErr where
  | valueError : PyErr
  | zeroDivisionError : PyErr
deriving DecidableEq, Repr

/-- One entry of the list returned by `WhenToExpect.query`: a dictionary with
keys `"Title"` and `"IcoPath"`. -/
structure ResultItem where
  Title : String
  IcoPath : String
deriving DecidableEq, Repr

/-- Numeric value of a list of ASCII digits (most significant first). -/
def digitsVal (ds : List Char) : ℕ :=
  ds.foldl (fun a c => 10 * a + (c.toNat - 48)) 0

/-- Value of a decimal literal with integer digits `ds` and fractional digits
`fs`, as an exact rational. -/
def decVal (ds fs : List Char) : ℚ :=
  (digitsVal ds : ℚ) + (digitsVal fs : ℚ) / (10 : ℚ) ^ fs.length

/-- Exponent digits of a `float` literal (after `e` and an optional sign):
requires at least one digit followed only by trailing whitespace. -/
def pyFloatExpDigits (r : List Char) (v : ℚ) (sgn : ℤ) : Option ℚ :=
  let (ds, r2) := r.span Char.isDigit
  if ds.isEmpty then none
  else if r2.all Char.isWhitespace then
    some (v * (10 : ℚ) ^ (sgn * (digitsVal ds : ℤ)))
  else none

/-- Exponent part of a `float` literal: optional sign, then digits. -/
def pyFloatExp (r : List Char) (v : ℚ) : Option ℚ :=
  match r with
  | '+' :: r2 => pyFloatExpDigits r2 v 1
  | '-' :: r2 => pyFloatExpDigits r2 v (-1)
  | _ => pyFloatExpDigits r v 1

/-- After the mantissa of a `float` literal: end of input, an exponent part, or
trailing whitespace only. -/
def pyFloatAfterMant (r : List Char) (v : ℚ) : Option ℚ :=
  match r with
  | [] => some v
  | c :: r2 =>
    if c = 'e' ∨ c = 'E' then pyFloatExp r2 v
    else if (c :: r2).all Char.isWhitespace then some v else none

/-- Unsigned part of a `float` literal: `digits [. digits]` or `. digits`,
optionally followed by an exponent. -/
def pyFloatCore (cs : List Char) : Option ℚ :=
  let (ip, r1) := cs.span Char.isDigit
  match r1 with
  | '.' :: r2 =>
    let (fp, r3) := r2.span Char.isDigit
    if ip.isEmpty && fp.isEmpty then none
    else pyFloatAfterMant r3 (decVal ip fp)
  | _ => if ip.isEmpty then none else pyFloatAfterMant r1 (digitsVal ip : ℚ)

/-- CPython `float(token)`: `some` value on a finite decimal literal (with
optional surrounding whitespace, sign and exponent), `none` where CPython
raises `ValueError`. -/
def pyFloat? (t : List Char) : Option ℚ :=
  match t.dropWhile Char.isWhitespace with
  | '+' :: r => pyFloatCore r
  | '-' :: r => (pyFloatCore r).map Neg.neg
  | r => pyFloatCore r

/-- Prefix match of the regex group `(\d+(?:\.\d+)?)` immediately followed by
the required separator `sep` (`'/'` for the fraction pattern, `':'` for the
odds pattern), greedily taking the optional fractional part and backtracking
to drop it, exactly as `re.match` does.  Returns the group value and the
remaining characters after the separator. -/
def groupThenSep (cs : List Char) (sep : Char) : Option (ℚ × List Char) :=
  let (d1, r1) := cs.span Char.isDigit
  if d1.isEmpty then none
  else
    match r1 with
    | '.' :: r2 =>
      let (f1, r3) := r2.span Char.isDigit
      if f1.isEmpty then
        none
      else
        match r3 with
        | c :: r4 => if c = sep then some (decVal d1 f1, r4) else none
        | [] => none
    | c :: r2 => if c = sep then some ((digitsVal d1 : ℚ), r2) else none
    | [] => none

/-- Prefix match of the trailing regex group `(\d+(?:\.\d+)?)`: once the
digits match, the whole pattern succeeds and any remaining characters are
ignored (the regexes in the source are unanchored at the end). -/
def group2Val (cs : List Char) : Option ℚ :=
  let (d2, r1) := cs.span Char.isDigit
  if d2.isEmpty then none
  else
    some
      (match r1 with
       | '.' :: r2 =>
         let (f2, _) := r2.span Char.isDigit
         if f2.isEmpty then (digitsVal d2 : ℚ) else decVal d2 f2
       | _ => (digitsVal d2 : ℚ))

/-- `re.match(r"(\d+(?:\.\d+)?)/(\d+(?:\.\d+)?)", token)`: the two group
values when the fraction pattern matches a prefix of the token. -/
def fracMatch? (t : List Char) : Option (ℚ × ℚ) :=
  match groupThenSep t '/' with
  | some (a, rest) => (group2Val rest).map fun b => (a, b)
  | none => none

/-- `re.match(r"(\d+(?:\.\d+)?):(\d+(?:\.\d+)?)", token)`: the two group
values when the odds pattern matches a prefix of the token. -/
def oddsMatch? (t : List Char) : Option (ℚ × ℚ) :=
  match groupThenSep t ':' with
  | some (a, rest) => (group2Val rest).map fun b => (a, b)
  | none => none

/-- `WhenToExpect.fraction_to_float`.  Tries `float(fraction)` first, then the
fraction regex, then the odds regex, returning `0.0` when nothing matches.
The `except ValueError` around the two divisions is dead code (dividing two
regex-matched digit groups can only raise `ZeroDivisionError`, which the
function does not catch and which therefore escapes, modelled as
`Except.error`). -/
def fraction_to_float (s : String) : Except PyErr ℚ :=
  match pyFloat? s.data with
  | some q => .ok q
  | none =>
    match fracMatch? s.data with
    | some (a, b) =>
      if b = 0 then .error .zeroDivisionError else .ok (a / b)
    | none =>
      match oddsMatch? s.data with
      | some (a, b) =>
        if a + b = 0 then .error .zeroDivisionError else .ok (a / (a + b))
      | none => .ok 0

/-- Helper for `pySplit`: split on whitespace runs, discarding empty chunks,
with `acc` holding the current chunk reversed. -/
def splitWsAux : List Char → List Char → List (List Char)
  | [], acc => if acc.isEmpty then [] else [acc.reverse]
  | c :: rest, acc =>
    if c.isWhitespace then
      if acc.isEmpty then splitWsAux rest []
      else acc.reverse :: splitWsAux rest []
    else splitWsAux rest (c :: acc)

/-- Python `query.strip().split()`: whitespace-separated tokens (`split()`
with no argument already discards leading/trailing whitespace, so the
`strip()` is redundant). -/
def pySplit (q : String) : List String :=
  (splitWsAux q.data []).map fun cs => ⟨cs⟩

/-- The instructional default title. -/
def defaultPrompt : String :=
  "Enter a probability (n/m) or odds (n:m) and optionally how sure you want to be that it occurs (default: 0.5)!"

/-- Round-half-to-even (Python `round`) on an exact rational. -/
def pyRoundQ (x : ℚ) : ℤ :=
  if Int.fract x < 1/2 then ⌊x⌋
  else if Int.fract x = 1/2 then (if Even ⌊x⌋ then ⌊x⌋ else ⌊x⌋ + 1)
  else ⌊x⌋ + 1

open Classical in
/-- Round-half-to-even (Python `round`) on a real number. -/
noncomputable def pyRoundR (x : ℝ) : ℤ :=
  if Int.fract x < 1/2 then ⌊x⌋
  else if Int.fract x = 1/2 then (if Even ⌊x⌋ then ⌊x⌋ else ⌊x⌋ + 1)
  else ⌊x⌋ + 1

/-- `math.log(1 - confidence_level, 1 - probability)`: the logarithm of
`1 - c` in base `1 - p`, which CPython computes as a quotient of natural
logarithms. -/
noncomputable def trialsRatio (p c : ℚ) : ℝ :=
  Real.log (1 - (c : ℝ)) / Real.log (1 - (p : ℝ))

/-- `expected_trials_precise = round(math.log(1 - c, 1 - p), 2)` as the
integer numerator of the resulting multiple of `1/100`. -/
noncomputable def kPrecise (p c : ℚ) : ℤ :=
  pyRoundR (100 * trialsRatio p c)

open Classical in
/-- Sign bit of the float `expected_trials_precise`: IEEE division yields a
negative float (possibly `-0.0`, preserved by `round`) exactly when the exact
quotient is negative, or is zero with a negative denominator. -/
noncomputable def negBit (p c : ℚ) : Bool :=
  if trialsRatio p c < 0 ∨ (trialsRatio p c = 0 ∧ Real.log (1 - (p : ℝ)) < 0)
  then true else false

/-- `expected_trials = math.ceil(expected_trials_precise)` where the precise
value is `k / 100`. -/
def expectedTrials (k : ℤ) : ℤ := ⌈(k : ℚ) / 100⌉

/-- Decimal digits of a natural number, via an explicit fuel argument so that
the definition is structurally recursive (Python `str` of a non-negative
`int`). -/
def natToDigitsAux : ℕ → ℕ → List Char
  | 0, _ => []
  | f + 1, n =>
    if n < 10 then [Nat.digitChar n]
    else natToDigitsAux f (n / 10) ++ [Nat.digitChar (n % 10)]

/-- Decimal digits of a natural number, most significant first. -/
def natToDigits (n : ℕ) : List Char := natToDigitsAux (n + 1) n

/-- Python `str` of an `int`, as characters. -/
def intToDigits (i : ℤ) : List Char :=
  (if i < 0 then ['-'] else []) ++ natToDigits i.natAbs

/-- Python `str` of the float `k / 100` produced by `round(x, 2)` (shortest
decimal representation), with `neg` the IEEE sign bit used to render `-0.0`.
CPython would switch to scientific notation above `1e16`, which this model
does not reach in any claim. -/
def reprRound2 (k : ℤ) (neg : Bool) : List Char :=
  if k = 0 then (if neg then ['-', '0', '.', '0'] else ['0', '.', '0'])
  else
    (if k < 0 then ['-'] else []) ++
      (let n := k.natAbs
       let fp := n % 100
       natToDigits (n / 100) ++
         (if fp = 0 then ['.', '0']
          else if fp % 10 = 0 then ['.', Nat.digitChar (fp / 10)]
          else if fp < 10 then ['.', '0', Nat.digitChar fp]
          else ['.', Nat.digitChar (fp / 10), Nat.digitChar (fp % 10)]))

/-- Python `.rstrip("0.")`: remove trailing characters that are `'0'` or
`'.'`. -/
def rstripZeroDot (cs : List Char) : List Char :=
  (cs.reverse.dropWhile fun c => c == '0' || c == '.').reverse

/-- The rendered confidence percentage `round(confidence_level * 100, 2)`,
with the sign bit of the underlying float. -/
def pctChars (c : ℚ) : List Char :=
  reprRound2 (pyRoundQ (c * 100 * 100)) (decide (c < 0))

/-- `"tries" if expected_trials_precise != 1 else "try"` where the precise
value is `k / 100`. -/
def triesWord (k : ℤ) : List Char :=
  if (k : ℚ) / 100 = 1 then "try".data else "tries".data

/-- The success-path title, assembled exactly as the f-string in `query` does
from the precise count `k / 100` (sign bit `neg`) and the confidence `c`. -/
def formatTitle (k : ℤ) (neg : Bool) (c : ℚ) : List Char :=
  let s0 := reprRound2 k neg
  let s1 := if s0 = ['0'] then ['0'] else rstripZeroDot s0
  let ceilS := intToDigits (expectedTrials k)
  let paren :=
    if s1 = ceilS ∨ s1 = ['-'] then []
    else [' ', '('] ++ s1 ++ [')']
  "Event is expected with a probability of ".data ++ pctChars c ++
    " % after ".data ++ ceilS ++ paren ++ [' '] ++ triesWord k ++ ['.']

/-- The title computed by the `try` block of `query` for parsed probability
`p` and confidence `c`: CPython raises `ValueError` (math domain error) when
`1 - c ≤ 0` or `1 - p ≤ 0`, and `ZeroDivisionError` when the base is `1`
(so `math.log` divides by `log(1) = 0`); both are caught and reported as
`"Invalid input(s)!"`. -/
noncomputable def calcTitle (p c : ℚ) : String :=
  if 1 - c ≤ 0 then "Invalid input(s)!"
  else if 1 - p ≤ 0 then "Invalid input(s)!"
  else if 1 - p = 1 then "Invalid input(s)!"
  else ⟨formatTitle (kPrecise p c) (negBit p c) c⟩

/-- `WhenToExpect.query`.  Splits the query, parses one or two tokens (the
confidence defaults to `0.5`), and returns the single result item; an
exception escaping `fraction_to_float` (which is called before the `try`
block) propagates out of `query`. -/
noncomputable def query (q : String) : Except PyErr (List ResultItem) :=
  match pySplit q with
  | [] => .ok [⟨defaultPrompt, "icon/expect.png"⟩]
  | [t] =>
    match fraction_to_float t with
    | .error e => .error e
    | .ok p => .ok [⟨calcTitle p (1/2), "icon/expect.png"⟩]
  | [t1, t2] =>
    match fraction_to_float t1 with
    | .error e => .error e
    | .ok p =>
      match fraction_to_float t2 with
      | .error e => .error e
      | .ok c => .ok [⟨calcTitle p c, "icon/expect.png"⟩]
  | _ => .ok [⟨"Too many inputs!", "icon/expect.png"⟩]

/-! ### Facts about the rounding and the logarithm ratio -/

lemma pyRoundR_eq {x : ℝ} {m : ℤ} (h1 : (m : ℝ) - 1/2 < x) (h2 : x < (m : ℝ) + 1/2) :
    pyRoundR x = m := by
  have hfd : Int.fract x = x - (⌊x⌋ : ℝ) := (Int.self_sub_floor x).symm
  rcases lt_or_le x (m : ℝ) with hx | hx
  · have hfl : ⌊x⌋ = m - 1 := by
      apply Int.floor_eq_iff.mpr
      constructor
      · push_cast
        linarith
      · push_cast
        linarith
    have hgt : 1/2 < Int.fract x := by
      rw [hfd, hfl]
      push_cast
      linarith
    unfold pyRoundR
    rw [if_neg (by linarith), if_neg (ne_of_gt hgt), hfl]
    ring
  · have hfl : ⌊x⌋ = m := by
      apply Int.floor_eq_iff.mpr
      refine ⟨hx, ?_⟩
      push_cast
      linarith
    have hlt : Int.fract x < 1/2 := by
      rw [hfd, hfl]
      linarith
    unfold pyRoundR
    rw [if_pos hlt, hfl]

lemma pyRoundR_nonneg {x : ℝ} (h : 0 ≤ x) : 0 ≤ pyRoundR x := by
  have h0 : 0 ≤ ⌊x⌋ := Int.floor_nonneg.mpr h
  unfold pyRoundR
  split_ifs <;> omega

lemma logdiv_lt {a b : ℝ} (ha : 1 < a) (hb : 1 < b) {m n : ℕ} (hn : 0 < n)
    (h : a ^ n < b ^ m) : Real.log a / Real.log b < (m : ℝ) / (n : ℝ) := by
  have hb0 : 0 < Real.log b := Real.log_pos hb
  have hn0 : (0 : ℝ) < (n : ℝ) := by exact_mod_cast hn
  rw [div_lt_div_iff hb0 hn0]
  have hlt := Real.log_lt_log (pow_pos (by linarith : (0:ℝ) < a) n) h
  rw [Real.log_pow, Real.log_pow] at hlt
  rw [mul_comm]
  exact hlt

lemma lt_logdiv {a b : ℝ} (ha : 1 < a) (hb : 1 < b) {m n : ℕ} (hn : 0 < n)
    (h : b ^ m < a ^ n) : (m : ℝ) / (n : ℝ) < Real.log a / Real.log b := by
  have hb0 : 0 < Real.log b := Real.log_pos hb
  have hn0 : (0 : ℝ) < (n : ℝ) := by exact_mod_cast hn
  rw [div_lt_div_iff hn0 hb0]
  have hlt := Real.log_lt_log (pow_pos (by linarith : (0:ℝ) < b) m) h
  rw [Real.log_pow, Real.log_pow] at hlt
  rw [mul_comm (Real.log a)]
  exact hlt

lemma trialsRatio_half : trialsRatio (1/2) (1/2) = 1 := by
  unfold trialsRatio
  have h1 : (1 : ℝ) - ((1/2 : ℚ) : ℝ) = 1/2 := by push_cast; norm_num
  rw [h1, div_self (ne_of_lt (Real.log_neg (by norm_num) (by norm_num)))]

lemma trialsRatio_ten : trialsRatio (1/2) (1023/1024) = 10 := by
  unfold trialsRatio
  have h1 : (1 : ℝ) - ((1023/1024 : ℚ) : ℝ) = (1/2 : ℝ) ^ (10 : ℕ) := by
    push_cast
    norm_num
  have h2 : (1 : ℝ) - ((1/2 : ℚ) : ℝ) = (1/2 : ℝ) := by push_cast; norm_num
  have hne : Real.log (1/2 : ℝ) ≠ 0 :=
    ne_of_lt (Real.log_neg (by norm_num) (by norm_num))
  rw [h1, h2, Real.log_pow, mul_div_assoc, div_self hne, mul_one]
  norm_num

lemma trialsRatio_dice : trialsRatio (1/6) (19/20) = Real.log 20 / Real.log (6/5) := by
  unfold trialsRatio
  have h1 : (1 : ℝ) - ((19/20 : ℚ) : ℝ) = (20 : ℝ)⁻¹ := by push_cast; norm_num
  have h2 : (1 : ℝ) - ((1/6 : ℚ) : ℝ) = ((6 : ℝ)/5)⁻¹ := by push_cast; norm_num
  rw [h1, h2, Real.log_inv, Real.log_inv, neg_div_neg_eq]

lemma ratio_dice_lb : (3285 : ℝ) / 200 < trialsRatio (1/6) (19/20) := by
  rw [trialsRatio_dice]
  have hnum : ((6 : ℝ)/5) ^ (3285 : ℕ) < 20 ^ (200 : ℕ) := by
    rw [div_pow, div_lt_iff (by positivity)]
    norm_num
  exact_mod_cast lt_logdiv (by norm_num) (by norm_num) (by norm_num) hnum

lemma ratio_dice_ub : trialsRatio (1/6) (19/20) < (3287 : ℝ) / 200 := by
  rw [trialsRatio_dice]
  have hnum : (20 : ℝ) ^ (200 : ℕ) < ((6 : ℝ)/5) ^ (3287 : ℕ) := by
    rw [div_pow, lt_div_iff (by positivity)]
    norm_num
  exact_mod_cast logdiv_lt (by norm_num) (by norm_num) (by norm_num) hnum

lemma kPrecise_dice : kPrecise (1/6) (19/20) = 1643 := by
  unfold kPrecise
  have hl := ratio_dice_lb
  have hu := ratio_dice_ub
  apply pyRoundR_eq
  · push_cast
    linarith
  · push_cast
    linarith

lemma trialsRatio_c2 :
    trialsRatio (9999/10000) (1/10000) = Real.log (10000/9999) / Real.log 10000 := by
  unfold trialsRatio
  have h1 : (1 : ℝ) - ((1/10000 : ℚ) : ℝ) = ((10000 : ℝ)/9999)⁻¹ := by
    push_cast
    norm_num
  have h2 : (1 : ℝ) - ((9999/10000 : ℚ) : ℝ) = (10000 : ℝ)⁻¹ := by
    push_cast
    norm_num
  rw [h1, h2, Real.log_inv, Real.log_inv, neg_div_neg_eq]

lemma ratio_c2_pos : 0 < trialsRatio (9999/10000) (1/10000) := by
  rw [trialsRatio_c2]
  exact div_pos (Real.log_pos (by norm_num)) (Real.log_pos (by norm_num))

lemma ratio_c2_ub : trialsRatio (9999/10000) (1/10000) < (1 : ℝ) / 200 := by
  rw [trialsRatio_c2]
  have hnum : ((10000 : ℝ)/9999) ^ (200 : ℕ) < 10000 ^ (1 : ℕ) := by
    rw [div_pow, div_lt_iff (by positivity)]
    norm_num
  exact_mod_cast logdiv_lt (by norm_num) (by norm_num) (by norm_num) hnum

lemma kPrecise_c2 : kPrecise (9999/10000) (1/10000) = 0 := by
  unfold kPrecise
  have hl := ratio_c2_pos
  have hu := ratio_c2_ub
  apply pyRoundR_eq
  · push_cast
    linarith
  · push_cast
    linarith

lemma kPrecise_half : kPrecise (1/2) (1/2) = 100 := by
  unfold kPrecise
  rw [trialsRatio_half]
  apply pyRoundR_eq
  · norm_num
  · norm_num

lemma kPrecise_ten : kPrecise (1/2) (1023/1024) = 1000 := by
  unfold kPrecise
  rw [trialsRatio_ten]
  apply pyRoundR_eq
  · norm_num
  · norm_num

lemma negBit_false_of_pos {p c : ℚ} (h : 0 < trialsRatio p c) : negBit p c = false := by
  unfold negBit
  rw [if_neg]
  rintro (h1 | ⟨h1, _⟩) <;> linarith

lemma trialsRatio_pos {p c : ℚ} (hp0 : 0 < p) (hp1 : p < 1) (hc0 : 0 < c) (hc1 : c < 1) :
    0 < trialsRatio p c := by
  unfold trialsRatio
  have hcr : (c : ℝ) < 1 := by exact_mod_cast hc1
  have hcr0 : (0 : ℝ) < (c : ℝ) := by exact_mod_cast hc0
  have hpr : (p : ℝ) < 1 := by exact_mod_cast hp1
  have hpr0 : (0 : ℝ) < (p : ℝ) := by exact_mod_cast hp0
  have h1 : Real.log (1 - (c : ℝ)) < 0 := Real.log_neg (by linarith) (by linarith)
  have h2 : Real.log (1 - (p : ℝ)) < 0 := Real.log_neg (by linarith) (by linarith)
  exact div_pos_iff.mpr (Or.inr ⟨h1, h2⟩)

/-! ### Facts about the decimal rendering and the trailing strip -/

lemma digitChar_pred {d : ℕ} (h1 : d < 10) (h2 : d ≠ 0) :
    (Nat.digitChar d == '0' || Nat.digitChar d == '.') = false := by
  have hall : ∀ d : ℕ, d < 10 → d ≠ 0 →
      ((Nat.digitChar d == '0' || Nat.digitChar d == '.') = false) := by decide
  exact hall d h1 h2

lemma natToDigits_getLast (n : ℕ) :
    (natToDigits n).getLast? = some (Nat.digitChar (n % 10)) := by
  unfold natToDigits natToDigitsAux
  by_cases h10 : n < 10
  · rw [if_pos h10, Nat.mod_eq_of_lt h10]
    rfl
  · rw [if_neg h10]
    exact List.getLast?_concat _

lemma natToDigits_ne_nil (n : ℕ) : natToDigits n ≠ [] := by
  unfold natToDigits natToDigitsAux
  by_cases h10 : n < 10
  · simp [h10]
  · simp [h10]

lemma rstripZeroDot_append {xs : List Char} {c : Char}
    (hlast : xs.getLast? = some c) (hc : (c == '0' || c == '.') = false) :
    rstripZeroDot (xs ++ ['.', '0']) = xs := by
  unfold rstripZeroDot
  have hrev : xs.reverse.head? = some c := by rw [List.head?_reverse, hlast]
  rcases hx : xs.reverse with _ | ⟨a, t⟩
  · rw [hx] at hrev
    simp at hrev
  · rw [hx] at hrev
    have ha : a = c := by simpa using hrev
    have hca : (a == '0' || a == '.') = false := by rw [ha]; exact hc
    have hstep : (xs ++ ['.', '0']).reverse = '0' :: '.' :: a :: t := by
      rw [List.reverse_append, hx]
      rfl
    rw [hstep, List.dropWhile_cons, if_pos (by decide), List.dropWhile_cons,
      if_pos (by decide), List.dropWhile_cons, if_neg (by simp [hca]), ← hx,
      List.reverse_reverse]

lemma expectedTrials_mul100 (n : ℤ) : expectedTrials (100 * n) = n := by
  unfold expectedTrials
  have h : ((100 * n : ℤ) : ℚ) / 100 = (n : ℚ) := by
    push_cast
    exact mul_div_cancel_left₀ _ (by norm_num)
  rw [h, Int.ceil_intCast]

/-- An integral precise value `n.0` with `n` nonzero and not ending in the
digit `0` strips back to exactly the digits of `n`, so the parenthetical is
omitted. -/
lemma formatTitle_mul100 {n : ℤ} (b : Bool) (c : ℚ) (hn : n ≠ 0) (hd : n % 10 ≠ 0) :
    formatTitle (100 * n) b c =
      "Event is expected with a probability of ".data ++ pctChars c ++
        " % after ".data ++ intToDigits n ++ [' '] ++ triesWord (100 * n) ++ ['.'] := by
  have hk0 : ¬ ((100 * n : ℤ) = 0) := by omega
  have habs : (100 * n : ℤ).natAbs = 100 * n.natAbs := by
    rw [Int.natAbs_mul]
    rfl
  have hip : 100 * n.natAbs / 100 = n.natAbs := Nat.mul_div_cancel_left _ (by norm_num)
  have hfp : 100 * n.natAbs % 100 = 0 := Nat.mul_mod_right 100 _
  have hsign : ((100 * n : ℤ) < 0) = (n < 0) := by
    apply propext
    constructor
    · intro h
      omega
    · intro h
      omega
  have hmod10 : n.natAbs % 10 ≠ 0 := by omega
  have hs0 : reprRound2 (100 * n) b =
      (if n < 0 then ['-'] else []) ++ (natToDigits n.natAbs ++ ['.', '0']) := by
    simp only [reprRound2, hk0, if_false, habs, hip, hfp, hsign, if_true,
      eq_self_iff_true, List.append_assoc]
  have hds := natToDigits_ne_nil n.natAbs
  have hlen : 0 < (natToDigits n.natAbs).length := List.length_pos.mpr hds
  have hne : (if n < 0 then ['-'] else []) ++ (natToDigits n.natAbs ++ ['.', '0']) ≠
      (['0'] : List Char) := by
    intro h
    apply_fun List.length at h
    simp only [List.length_append, List.length_cons, List.length_nil] at h
    omega
  have hlast : ((if n < 0 then ['-'] else []) ++ natToDigits n.natAbs).getLast? =
      some (Nat.digitChar (n.natAbs % 10)) := by
    rw [List.getLast?_append, natToDigits_getLast]
    rfl
  have hc10 : n.natAbs % 10 < 10 := Nat.mod_lt _ (by norm_num)
  have hstrip : rstripZeroDot
      ((if n < 0 then ['-'] else []) ++ (natToDigits n.natAbs ++ ['.', '0'])) =
      (if n < 0 then ['-'] else []) ++ natToDigits n.natAbs := by
    rw [← List.append_assoc]
    exact rstripZeroDot_append hlast (digitChar_pred hc10 hmod10)
  have hint : intToDigits n = (if n < 0 then ['-'] else []) ++ natToDigits n.natAbs := rfl
  simp only [formatTitle, hs0, expectedTrials_mul100, hint]
  rw [if_neg hne, hstrip, if_pos (Or.inl rfl)]
  simp only [List.append_nil]

/-! ### Branch reduction for `calcTitle` and `query` -/

lemma calcTitle_invalid {p c : ℚ} (h : 1 - c ≤ 0 ∨ 1 - p ≤ 0 ∨ 1 - p = 1) :
    calcTitle p c = "Invalid input(s)!" := by
  unfold calcTitle
  split_ifs with h1 h2 h3
  · rfl
  · rfl
  · rfl
  · rcases h with h | h | h
    · exact absurd h h1
    · exact absurd h h2
    · exact absurd h h3

lemma calcTitle_success {p c : ℚ} (h1 : ¬ (1 - c ≤ 0)) (h2 : ¬ (1 - p ≤ 0))
    (h3 : ¬ (1 - p = 1)) :
    calcTitle p c = ⟨formatTitle (kPrecise p c) (negBit p c) c⟩ := by
  unfold calcTitle
  rw [if_neg h1, if_neg h2, if_neg h3]

lemma query_prompt {q : String} (hs : pySplit q = []) :
    query q = .ok [⟨defaultPrompt, "icon/expect.png"⟩] := by
  simp only [query, hs]

lemma query_one {q t : String} {p : ℚ} (hs : pySplit q = [t])
    (h1 : fraction_to_float t = .ok p) :
    query q = .ok [⟨calcTitle p (1/2), "icon/expect.png"⟩] := by
  simp only [query, hs, h1]

lemma query_two {q t1 t2 : String} {p c : ℚ} (hs : pySplit q = [t1, t2])
    (h1 : fraction_to_float t1 = .ok p) (h2 : fraction_to_float t2 = .ok c) :
    query q = .ok [⟨calcTitle p c, "icon/expect.png"⟩] := by
  simp only [query, hs, h1, h2]

lemma query_many {q t1 t2 t3 : String} {ts : List String}
    (hs : pySplit q = t1 :: t2 :: t3 :: ts) :
    query q = .ok [⟨"Too many inputs!", "icon/expect.png"⟩] := by
  unfold query
  rw [hs]

/-! ### Claims -/

/-- Claim C1: the spec asserts the parser returns `0.0` on any failed
conversion and never raises, but the code catches only `ValueError`: for the
token `"1/0"` the fraction regex matches and `float("1") / float("0")` raises
an uncaught `ZeroDivisionError` (likewise `"0:0"` through the odds pattern),
while unmatched tokens such as `"garbage"` do fall back to `0.0`.  The never-
raise behaviour is clearly the intent (the function is built around the
`0.0` fallback and `query` itself catches `ZeroDivisionError` downstream), so
the missing exception class is a code bug. -/
theorem claimC1 :
    fraction_to_float "1/0" = .error .zeroDivisionError ∧
      fraction_to_float "0:0" = .error .zeroDivisionError ∧
      fraction_to_float "garbage" = .ok 0 := by
  refine ⟨?_, ?_, ?_⟩ <;> with_unfolding_all rfl

/-- Claim C2 counterexample: at `p = 0.9999` and `c = 0.0001`, both strictly
between 0 and 1, the ratio `log(1-c)/log(1-p) ≈ 1.086e-5` is rounded to two
decimals (giving `0.0`) before the ceiling is taken, so the reported integer
trial count is `0`, not `≥ 1`; the full pipeline outputs
"... after 0 () tries.". -/
theorem claimC2_counterexample :
    (0 < (9999/10000 : ℚ) ∧ (9999/10000 : ℚ) < 1 ∧
        0 < (1/10000 : ℚ) ∧ (1/10000 : ℚ) < 1) ∧
      expectedTrials (kPrecise (9999/10000) (1/10000)) = 0 ∧
      query "0.9999 0.0001" =
        .ok [⟨"Event is expected with a probability of 0.01 % after 0 () tries.",
          "icon/expect.png"⟩] := by
  refine ⟨by norm_num, ?_, ?_⟩
  · rw [kPrecise_c2]
    with_unfolding_all rfl
  · have hs : pySplit "0.9999 0.0001" = ["0.9999", "0.0001"] := by
      with_unfolding_all rfl
    have h1 : fraction_to_float "0.9999" = .ok (9999/10000) := by
      with_unfolding_all rfl
    have h2 : fraction_to_float "0.0001" = .ok (1/10000) := by
      with_unfolding_all rfl
    rw [query_two hs h1 h2,
      calcTitle_success (by norm_num) (by norm_num) (by norm_num), kPrecise_c2,
      negBit_false_of_pos ratio_c2_pos]
    with_unfolding_all rfl

/-- Claim C2 (amended): for all `p, c` strictly between 0 and 1 the computed
integer trial count `ceil(round(log(1-c)/log(1-p), 2))` is at least 0 (the
original bound 1 fails because the two-decimal rounding happens before the
ceiling and can produce 0). -/
theorem claimC2 (p c : ℚ) (hp0 : 0 < p) (hp1 : p < 1) (hc0 : 0 < c) (hc1 : c < 1) :
    0 ≤ expectedTrials (kPrecise p c) := by
  have hk : 0 ≤ kPrecise p c := by
    unfold kPrecise
    apply pyRoundR_nonneg
    have hpos := trialsRatio_pos hp0 hp1 hc0 hc1
    linarith
  unfold expectedTrials
  exact Int.ceil_nonneg (div_nonneg (by exact_mod_cast hk) (by norm_num))

/-- Witness for claim C2 (amended) at `p = c = 1/2`. -/
theorem claimC2_witness : 0 ≤ expectedTrials (kPrecise (1/2) (1/2)) :=
  claimC2 (1/2) (1/2) (by norm_num) (by norm_num) (by norm_num) (by norm_num)

/-- Claim C3: the spec asserts `compute` always returns exactly one of the
four outcomes, but on the query `"1/0"` the uncaught `ZeroDivisionError` from
`fraction_to_float` (raised before `query`'s `try` block) escapes and no
result list is produced at all — the same parser bug as in claim C1. -/
theorem claimC3 : query "1/0" = .error .zeroDivisionError := by
  have hs : pySplit "1/0" = ["1/0"] := by with_unfolding_all rfl
  have h1 : fraction_to_float "1/0" = .error .zeroDivisionError := by
    with_unfolding_all rfl
  simp only [query, hs, h1]

/-- Claim C4: whenever the parsed values hit the formula's numeric failure
conditions — `p = 1` or `c = 1` (logarithm of zero), `1 ≤ p` (logarithm
domain error), or `p = 0` (division by the zero logarithm of base 1) — the
returned item is titled "Invalid input(s)!", both with an explicit confidence
token and with the defaulted one; concretely `compute("1 0.5")` does so. -/
theorem claimC4 :
    (∀ (q t : String) (p : ℚ), pySplit q = [t] → fraction_to_float t = .ok p →
        (p = 1 ∨ 1 ≤ p ∨ p = 0) →
        query q = .ok [⟨"Invalid input(s)!", "icon/expect.png"⟩]) ∧
      (∀ (q t1 t2 : String) (p c : ℚ), pySplit q = [t1, t2] →
        fraction_to_float t1 = .ok p → fraction_to_float t2 = .ok c →
        (p = 1 ∨ c = 1 ∨ 1 ≤ p ∨ p = 0) →
        query q = .ok [⟨"Invalid input(s)!", "icon/expect.png"⟩]) ∧
      query "1 0.5" = .ok [⟨"Invalid input(s)!", "icon/expect.png"⟩] := by
  refine ⟨?_, ?_, ?_⟩
  · intro q t p hs h1 hdisj
    rw [query_one hs h1]
    rw [calcTitle_invalid ?_]
    rcases hdisj with h | h | h
    · exact Or.inr (Or.inl (by rw [h]; norm_num))
    · exact Or.inr (Or.inl (by linarith))
    · exact Or.inr (Or.inr (by rw [h]; norm_num))
  · intro q t1 t2 p c hs h1 h2 hdisj
    rw [query_two hs h1 h2]
    rw [calcTitle_invalid ?_]
    rcases hdisj with h | h | h | h
    · exact Or.inr (Or.inl (by rw [h]; norm_num))
    · exact Or.inl (by rw [h]; norm_num)
    · exact Or.inr (Or.inl (by linarith))
    · exact Or.inr (Or.inr (by rw [h]; norm_num))
  · have hs : pySplit "1 0.5" = ["1", "0.5"] := by with_unfolding_all rfl
    have h1 : fraction_to_float "1" = .ok 1 := by with_unfolding_all rfl
    have h2 : fraction_to_float "0.5" = .ok (1/2) := by with_unfolding_all rfl
    rw [query_two hs h1 h2, calcTitle_invalid (Or.inr (Or.inl (by norm_num)))]

/-- Witness for claim C4 at the two-token query `"2 0.7"` (here `1 ≤ p`). -/
theorem claimC4_witness :
    query "2 0.7" = .ok [⟨"Invalid input(s)!", "icon/expect.png"⟩] :=
  claimC4.2.1 "2 0.7" "2" "0.7" 2 (7/10) (by with_unfolding_all rfl)
    (by with_unfolding_all rfl) (by with_unfolding_all rfl)
    (Or.inr (Or.inr (Or.inl (by norm_num))))

/-- Claim C5: the three notations agree — `parse("0.05")`, `parse("1/20")`
and `parse("1:19")` all give `1/20` — and in general a token matching the
fraction pattern yields `n/m` and a token matching the odds pattern yields
`a/(a+b)` (for nonzero divisors; a zero divisor raises, see claim C1). -/
theorem claimC5 :
    fraction_to_float "0.05" = .ok (1/20) ∧
      fraction_to_float "1/20" = .ok (1/20) ∧
      fraction_to_float "1:19" = .ok (1/20) ∧
      (∀ (s : String) (a b : ℚ), pyFloat? s.data = none →
        fracMatch? s.data = some (a, b) → b ≠ 0 →
        fraction_to_float s = .ok (a / b)) ∧
      (∀ (s : String) (a b : ℚ), pyFloat? s.data = none → fracMatch? s.data = none →
        oddsMatch? s.data = some (a, b) → a + b ≠ 0 →
        fraction_to_float s = .ok (a / (a + b))) := by
  refine ⟨by with_unfolding_all rfl, by with_unfolding_all rfl,
    by with_unfolding_all rfl, ?_, ?_⟩
  · intro s a b h1 h2 hb
    simp only [fraction_to_float, h1, h2, if_neg hb]
  · intro s a b h1 h2 h3 hab
    simp only [fraction_to_float, h1, h2, h3, if_neg hab]

/-- Witness for claim C5: the general fraction and odds conversions at the
tokens `"7/8"` and `"3:2"`. -/
theorem claimC5_witness :
    fraction_to_float "7/8" = .ok ((7 : ℚ) / 8) ∧
      fraction_to_float "3:2" = .ok ((3 : ℚ) / (3 + 2)) :=
  ⟨claimC5.2.2.2.1 "7/8" 7 8 (by with_unfolding_all rfl) (by with_unfolding_all rfl)
      (by norm_num),
    claimC5.2.2.2.2 "3:2" 3 2 (by with_unfolding_all rfl) (by with_unfolding_all rfl)
      (by with_unfolding_all rfl) (by norm_num)⟩

/-- Claim C6: `compute("1/6 0.95")` succeeds with 17 as the integer try count
and 95 as the percentage: `log(0.05)/log(5/6)` lies in `(16.425, 16.435)`, so
it rounds to 16.43, whose ceiling is 17. -/
theorem claimC6 :
    query "1/6 0.95" =
      .ok [⟨"Event is expected with a probability of 95.0 % after 17 (16.43) tries.",
        "icon/expect.png"⟩] := by
  have hs : pySplit "1/6 0.95" = ["1/6", "0.95"] := by with_unfolding_all rfl
  have h1 : fraction_to_float "1/6" = .ok (1/6) := by with_unfolding_all rfl
  have h2 : fraction_to_float "0.95" = .ok (19/20) := by with_unfolding_all rfl
  have hpos : 0 < trialsRatio (1/6) (19/20) := by
    have hlb := ratio_dice_lb
    linarith
  rw [query_two hs h1 h2, calcTitle_success (by norm_num) (by norm_num) (by norm_num),
    kPrecise_dice, negBit_false_of_pos hpos]
  with_unfolding_all rfl

/-- Claim C7: with a single token the confidence defaults to 0.5;
`compute("0.5")` computes `log(0.5)/log(0.5) = 1` and reports
"after 1 try." — singular, no parenthetical — and the word "try" is chosen
exactly when the precise value equals 1. -/
theorem claimC7 :
    query "0.5" =
      .ok [⟨"Event is expected with a probability of 50.0 % after 1 try.",
        "icon/expect.png"⟩] ∧
      (∀ k : ℤ, triesWord k = "try".data ↔ (k : ℚ) / 100 = 1) ∧
      (∀ (q t : String) (p : ℚ), pySplit q = [t] → fraction_to_float t = .ok p →
        query q = .ok [⟨calcTitle p (1/2), "icon/expect.png"⟩]) := by
  refine ⟨?_, ?_, ?_⟩
  · have hs : pySplit "0.5" = ["0.5"] := by with_unfolding_all rfl
    have h1 : fraction_to_float "0.5" = .ok (1/2) := by with_unfolding_all rfl
    have hpos : 0 < trialsRatio (1/2) (1/2) := by
      rw [trialsRatio_half]
      norm_num
    rw [query_one hs h1, calcTitle_success (by norm_num) (by norm_num) (by norm_num),
      kPrecise_half, negBit_false_of_pos hpos]
    with_unfolding_all rfl
  · intro k
    unfold triesWord
    by_cases h : (k : ℚ) / 100 = 1
    · rw [if_pos h]
      exact ⟨fun _ => h, fun _ => rfl⟩
    · rw [if_neg h]
      constructor
      · intro hcontra
        exact absurd hcontra (by decide)
      · intro hcontra
        exact absurd hcontra h
  · intro q t p hs h1
    exact query_one hs h1

/-- Witness for claim C7: `triesWord` at the precise value 1, and the
defaulted confidence on the query `"0.5"`. -/
theorem claimC7_witness :
    triesWord 100 = "try".data ∧
      query "0.5" = .ok [⟨calcTitle (1/2) (1/2), "icon/expect.png"⟩] :=
  ⟨(claimC7.2.1 100).mpr (by norm_num),
    claimC7.2.2 "0.5" "0.5" (1/2) (by with_unfolding_all rfl)
      (by with_unfolding_all rfl)⟩

/-- Claim C8 counterexample: at `p = 0.5`, `c = 0.9990234375` the precise
value is exactly `10.0`, equal to its own ceiling `10`, yet the title does
contain a parenthetical: `"10.0".rstrip("0.")` strips the trailing zero of
`10` down to `"1"`, which differs from `str(10)`, so `" (1)"` is appended. -/
theorem claimC8_counterexample :
    ((kPrecise (1/2) (1023/1024) : ℚ) / 100 =
        ((expectedTrials (kPrecise (1/2) (1023/1024)) : ℤ) : ℚ)) ∧
      query "0.5 0.9990234375" =
        .ok [⟨"Event is expected with a probability of 99.9 % after 10 (1) tries.",
          "icon/expect.png"⟩] := by
  constructor
  · rw [kPrecise_ten]
    with_unfolding_all rfl
  · have hs : pySplit "0.5 0.9990234375" = ["0.5", "0.9990234375"] := by
      with_unfolding_all rfl
    have h1 : fraction_to_float "0.5" = .ok (1/2) := by with_unfolding_all rfl
    have h2 : fraction_to_float "0.9990234375" = .ok (1023/1024) := by
      with_unfolding_all rfl
    have hpos : 0 < trialsRatio (1/2) (1023/1024) := by
      rw [trialsRatio_ten]
      norm_num
    rw [query_two hs h1 h2, calcTitle_success (by norm_num) (by norm_num) (by norm_num),
      kPrecise_ten, negBit_false_of_pos hpos]
    with_unfolding_all rfl

/-- Claim C8 (amended): on the success path, whenever the precise value is a
nonzero integer `n` (so it equals its own ceiling) whose last decimal digit is
not 0, the stripped representation equals `str(n)` and the title carries no
parenthetical.  (For `n = 0`, or `n` divisible by 10, the character-trim
defect produces a spurious parenthetical — see the counterexample.) -/
theorem claimC8 (p c : ℚ) (n : ℤ) (h1 : ¬ (1 - c ≤ 0)) (h2 : ¬ (1 - p ≤ 0))
    (h3 : ¬ (1 - p = 1)) (hk : kPrecise p c = 100 * n) (hn : n ≠ 0)
    (hd : n % 10 ≠ 0) :
    calcTitle p c =
      ⟨"Event is expected with a probability of ".data ++ pctChars c ++
        " % after ".data ++ intToDigits n ++ [' '] ++ triesWord (100 * n) ++ ['.']⟩ := by
  rw [calcTitle_success h1 h2 h3, hk, formatTitle_mul100 _ _ hn hd]

/-- Witness for claim C8 (amended) at `p = c = 1/2`, where the precise value
is the integer 1. -/
theorem claimC8_witness :
    calcTitle (1/2) (1/2) =
      ⟨"Event is expected with a probability of ".data ++ pctChars (1/2) ++
        " % after ".data ++ intToDigits 1 ++ [' '] ++ triesWord (100 * 1) ++ ['.']⟩ :=
  claimC8 (1/2) (1/2) 1 (by norm_num) (by norm_num) (by norm_num)
    (by rw [kPrecise_half]; norm_num) (by norm_num) (by decide)

/-- Claim C9: every result item that `query` actually returns carries the
icon path `"icon/expect.png"`, on all four branches. -/
theorem claimC9 :
    ∀ (q : String) (items : List ResultItem), query q = .ok items →
      ∀ r ∈ items, r.IcoPath = "icon/expect.png" := by
  intro q items h r hr
  rcases hs : pySplit q with _ | ⟨t1, _ | ⟨t2, _ | ⟨t3, ts3⟩⟩⟩
  · rw [query_prompt hs] at h
    cases h
    simp only [List.mem_singleton] at hr
    rw [hr]
  · cases hf : fraction_to_float t1 with
    | error e =>
      simp only [query, hs, hf] at h
      exact Except.noConfusion h
    | ok p =>
      rw [query_one hs hf] at h
      cases h
      simp only [List.mem_singleton] at hr
      rw [hr]
  · cases hf1 : fraction_to_float t1 with
    | error e =>
      simp only [query, hs, hf1] at h
      exact Except.noConfusion h
    | ok p =>
      cases hf2 : fraction_to_float t2 with
      | error e =>
        simp only [query, hs, hf1, hf2] at h
        exact Except.noConfusion h
      | ok c =>
        rw [query_two hs hf1 hf2] at h
        cases h
        simp only [List.mem_singleton] at hr
        rw [hr]
  · rw [query_many hs] at h
    cases h
    simp only [List.mem_singleton] at hr
    rw [hr]

/-- Witness for claim C9 on the empty query. -/
theorem claimC9_witness :
    ResultItem.IcoPath ⟨defaultPrompt, "icon/expect.png"⟩ = "icon/expect.png" :=
  claimC9 "" [⟨defaultPrompt, "icon/expect.png"⟩]
    (query_prompt (by with_unfolding_all rfl))
    ⟨defaultPrompt, "icon/expect.png"⟩ (List.mem_singleton.mpr rfl)

/-- Claim C10: the regexes are prefix matches, not full-token matches, so a
valid fraction or odds prefix followed by trailing junk is accepted:
`parse("1/2abc") = 0.5` and `parse("1:19xyz") = 0.05`, with the match
functions returning the numeric groups of the prefix. -/
theorem claimC10 :
    fraction_to_float "1/2abc" = .ok (1/2) ∧
      fraction_to_float "1:19xyz" = .ok (1/20) ∧
      fracMatch? "1/2abc".data = some (1, 2) ∧
      oddsMatch? "1:19xyz".data = some (1, 19) := by
  refine ⟨?_, ?_, ?_, ?_⟩ <;> with_unfolding_all rfl

end WhenToExpect
